import Mathlib

/-!
Verification development for the `docdl` ingestion pipeline.

Shallow embedding of the repository's core modules:
* `util.py` / `hashlib.sha256` — byte-level SHA-256 over `Nat` words (mod 2^32),
  UTF-8 encoding of strings, hex digests;
* `http.py` — `HttpConfig`, `RateLimiter.wait` (time modeled as `ℚ`, sleeping
  modeled as advancing the clock by exactly the requested duration), and the
  `fetch` retry loop (the transport is an oracle mapping the attempt index to
  either a response or a transport exception; backoff jitter is an oracle);
* `download.py` — `stable_pdf_filename` and `download_pdf` (paywall check);
* `run.py` — the per-item state machine of `main` and the discovery phase,
  with the external collaborators (store, resolver, extractor, enricher)
  modeled as per-item outcome environments, and store/enrich effects recorded
  as an event trace.
-/

namespace Docdl

/-! ### Bytes, hex and SHA-256 (embedding of `hashlib.sha256(...).hexdigest()`) -/

/-- Truncation to 32 bits: machine words are `Nat` reduced mod `2^32`. -/
def w32 (n : Nat) : Nat := n % 4294967296

/-- Right rotation of a 32-bit word. -/
def rotr (n x : Nat) : Nat := w32 ((x >>> n) ||| (x <<< (32 - n)))

/-- Bitwise complement on 32 bits. -/
def bnot32 (x : Nat) : Nat := x ^^^ 4294967295

def shaCh (x y z : Nat) : Nat := (x &&& y) ^^^ (bnot32 x &&& z)

def shaMaj (x y z : Nat) : Nat := (x &&& y) ^^^ (x &&& z) ^^^ (y &&& z)

def bigSigma0 (x : Nat) : Nat := rotr 2 x ^^^ rotr 13 x ^^^ rotr 22 x

def bigSigma1 (x : Nat) : Nat := rotr 6 x ^^^ rotr 11 x ^^^ rotr 25 x

def smallSigma0 (x : Nat) : Nat := rotr 7 x ^^^ rotr 18 x ^^^ (x >>> 3)

def smallSigma1 (x : Nat) : Nat := rotr 17 x ^^^ rotr 19 x ^^^ (x >>> 10)

/-- The 64 SHA-256 round constants (FIPS 180-4, written in decimal). -/
def shaK : List Nat :=
  [1116352408, 1899447441, 3049323471, 3921009573, 961987163,
   1508970993, 2453635748, 2870763221, 3624381080, 310598401,
   607225278, 1426881987, 1925078388, 2162078206, 2614888103,
   3248222580, 3835390401, 4022224774, 264347078, 604807628,
   770255983, 1249150122, 1555081692, 1996064986, 2554220882,
   2821834349, 2952996808, 3210313671, 3336571891, 3584528711,
   113926993, 338241895, 666307205, 773529912, 1294757372,
   1396182291, 1695183700, 1986661051, 2177026350, 2456956037,
   2730485921, 2820302411, 3259730800, 3345764771, 3516065817,
   3600352804, 4094571909, 275423344, 430227734, 506948616,
   659060556, 883997877, 958139571, 1322822218, 1537002063,
   1747873779, 1955562222, 2024104815, 2227730452, 2361852424,
   2428436474, 2756734187, 3204031479, 3329325298]

/-- Initial SHA-256 hash state (FIPS 180-4, written in decimal). -/
def shaH0 : List Nat :=
  [1779033703, 3144134277, 1013904242, 2773480762,
   1359893119, 2600822924, 528734635, 1541459225]

/-- Big-endian 4-byte group to one 32-bit word; extra convention for short lists
is irrelevant because blocks are always complete. -/
def wordOfBytes : List Nat → Nat
  | [a, b, c, d] => ((a * 256 + b) * 256 + c) * 256 + d
  | _ => 0

/-- Take `n` elements (reversed-accumulator form) and return them with the
remainder of the list. -/
def splitAtRev : Nat → List Nat → List Nat → List Nat × List Nat
  | 0, acc, rest => (acc.reverse, rest)
  | _ + 1, acc, [] => (acc.reverse, [])
  | n + 1, acc, x :: xs => splitAtRev n (x :: acc) xs

/-- Fuelled chunking; the fuel bounds the number of produced chunks. -/
def chunksF (k : Nat) : Nat → List Nat → List (List Nat)
  | 0, _ => []
  | _, [] => []
  | fuel + 1, x :: xs =>
    let p := splitAtRev (k - 1) [x] xs
    p.1 :: chunksF k fuel p.2

/-- Split a list into chunks of size `k` (`k > 0` in all uses). -/
def chunks (k : Nat) (l : List Nat) : List (List Nat) := chunksF k l.length l

/-- Big-endian byte decomposition, `len` bytes. -/
def beBytes : Nat → Nat → List Nat
  | 0, _ => []
  | len + 1, n => beBytes len (n / 256) ++ [n % 256]

/-- SHA-256 message padding: append `0x80`, zero-pad to 56 mod 64, then the
64-bit big-endian bit length. -/
def shaPad (msg : List Nat) : List Nat :=
  let L := msg.length
  let padZeros := (55 + 64 - L % 64) % 64
  msg ++ 128 :: List.replicate padZeros 0 ++ beBytes 8 (L * 8)

/-- Message-schedule extension: given the reversed list of scheduled words so
far (`w[t-1], w[t-2], ...`), produce `count` further words, reversed order. -/
def shaExtend : Nat → List Nat → List Nat
  | 0, acc => acc
  | n + 1, acc =>
    let w2 := acc.getD 1 0
    let w7 := acc.getD 6 0
    let w15 := acc.getD 14 0
    let w16 := acc.getD 15 0
    let w := w32 (smallSigma1 w2 + w7 + smallSigma0 w15 + w16)
    shaExtend n (w :: acc)

/-- One round of the SHA-256 compression function on state
`[a, b, c, d, e, f, g, h]` with round constant `k` and schedule word `w`. -/
def shaRound (st : List Nat) (k w : Nat) : List Nat :=
  match st with
  | [a, b, c, d, e, f, g, h] =>
    let t1 := w32 (h + bigSigma1 e + shaCh e f g + k + w)
    let t2 := w32 (bigSigma0 a + shaMaj a b c)
    [w32 (t1 + t2), a, b, c, w32 (d + t1), e, f, g]
  | st => st

/-- Compress one 64-byte block into the hash state. -/
def shaCompress (h : List Nat) (block : List Nat) : List Nat :=
  let w0 := (chunks 4 block).map wordOfBytes
  let ws := (shaExtend 48 w0.reverse).reverse
  let st := (ws.zip shaK).foldl (fun st kw => shaRound st kw.2 kw.1) h
  (h.zip st).map fun p => w32 (p.1 + p.2)

/-- SHA-256 digest of a byte list, as the list of eight 32-bit words. -/
def sha256Words (msg : List Nat) : List Nat :=
  (chunks 64 (shaPad msg)).foldl shaCompress shaH0

def hexDigit (n : Nat) : Char :=
  if n < 10 then Char.ofNat (48 + n) else Char.ofNat (87 + n)

/-- Lowercase hex rendering of a 32-bit word (8 digits). -/
def hexWord (n : Nat) : List Char :=
  [hexDigit (n / 0x10000000 % 16), hexDigit (n / 0x1000000 % 16),
   hexDigit (n / 0x100000 % 16), hexDigit (n / 0x10000 % 16),
   hexDigit (n / 0x1000 % 16), hexDigit (n / 0x100 % 16),
   hexDigit (n / 16 % 16), hexDigit (n % 16)]

/-- Embedding of `hashlib.sha256(b).hexdigest()`: 64-character lowercase hex digest. -/
def sha256Hex (msg : List Nat) : String :=
  String.mk ((sha256Words msg).flatMap hexWord)

/-- UTF-8 encoding of one character (code point to byte list). -/
def utf8EncodeCharNat (c : Char) : List Nat :=
  let n := c.toNat
  if n < 0x80 then [n]
  else if n < 0x800 then [0xc0 + n / 0x40, 0x80 + n % 0x40]
  else if n < 0x10000 then
    [0xe0 + n / 0x1000, 0x80 + n / 0x40 % 0x40, 0x80 + n % 0x40]
  else
    [0xf0 + n / 0x40000, 0x80 + n / 0x1000 % 0x40, 0x80 + n / 0x40 % 0x40,
     0x80 + n % 0x40]

/-- Embedding of `s.encode("utf-8")` as a byte list. -/
def utf8Bytes (s : String) : List Nat := s.data.flatMap utf8EncodeCharNat

/-- Embedding of `util.sha256_text`: hex SHA-256 digest of the UTF-8 encoding of a string. -/
def sha256_text (s : String) : String := sha256Hex (utf8Bytes s)

/-- Known-answer check: SHA-256 of the empty message. -/
theorem sha256_empty_vector :
    sha256_text "" =
      "e3b0c44298fc1c149afbf4c8996fb92427ae41e4649b934ca495991b7852b855" := by
  rfl

/-- Known-answer check: SHA-256 of `"abc"`. -/
theorem sha256_abc_vector :
    sha256_text "abc" =
      "ba7816bf8f01cfea414140de5dae2223b00361a396177a9cb410ff61f20015ad" := by
  rfl

/-! ### `http.py`: configuration, rate limiter, fetch retry loop

Time is modeled by `ℚ` (seconds since the epoch); `time.sleep(s)` advances the
clock by exactly `s`; `time.time()` reads the clock. The HTTP transport of
`client.get` is an oracle from the attempt index to an outcome, and
`random.random()` jitter is an oracle from the attempt index to a rational. -/

structure HttpConfig where
  user_agent : String
  timeout_s : Int := 30
  max_retries : Nat := 3
  rps_per_domain : ℚ := 5
  backoff_statuses : List Nat := [429, 503]

/-- Model of `urlparse(url).netloc`: the authority component, i.e. what follows the
first `//` up to the next `/`, `?` or `#`; empty when there is no `//`. -/
def netlocChars : List Char → List Char
  | [] => []
  | '/' :: '/' :: rest =>
    rest.takeWhile fun c => !(c == '/' || c == '?' || c == '#')
  | _ :: rest => netlocChars rest

def netloc (url : String) : String := String.mk (netlocChars url.data)

/-- Model of `dict.get(k, 0.0)` on the per-domain timestamp map. -/
def lookupD : List (String × ℚ) → String → ℚ
  | [], _ => 0
  | p :: rest, k => if p.1 == k then p.2 else lookupD rest k

/-- Model of `dict[k] = v`: replace the binding if present, else append it. -/
def insertD : List (String × ℚ) → String → ℚ → List (String × ℚ)
  | [], k, v => [(k, v)]
  | p :: rest, k, v => if p.1 == k then (k, v) :: rest else p :: insertD rest k v

structure RateLimiter where
  rps : ℚ
  lastByDomain : List (String × ℚ)
  deriving DecidableEq

/-- The minimum inter-request interval `1.0 / max(self.rps, 0.1)`. -/
def RateLimiter.minInterval (rl : RateLimiter) : ℚ := 1 / max rl.rps (1 / 10)

/-- The time `wait` would sleep when called on `url` at clock `now`:
`max(0, last + min_interval - now)`. -/
def RateLimiter.sleepFor (rl : RateLimiter) (url : String) (now : ℚ) : ℚ :=
  let last := lookupD rl.lastByDomain (netloc url)
  let s := last + rl.minInterval - now
  if 0 < s then s else 0

/-- Embedding of `RateLimiter.wait`: sleep if needed, then record the post-sleep clock as
the domain's last-request timestamp. Returns the updated limiter and clock. -/
def RateLimiter.wait (rl : RateLimiter) (url : String) (now : ℚ) :
    RateLimiter × ℚ :=
  let t := now + rl.sleepFor url now
  (⟨rl.rps, insertD rl.lastByDomain (netloc url) t⟩, t)

structure Response where
  status : Nat
  contentType : String
  deriving DecidableEq

/-- Outcome of one `client.get` call: a response, or a transport exception. -/
inductive AttemptOutcome where
  | resp (r : Response)
  | exc (e : String)
  deriving DecidableEq

/-- Observable events of the fetch loop: a rate-limiter wait (with the slept
duration), a GET attempt, a backoff sleep. -/
inductive Event where
  | wait (url : String) (slept : ℚ)
  | get (url : String)
  | backoff (attempt : Nat) (dur : ℚ)
  deriving DecidableEq

inductive FetchResult where
  | ok (r : Response)
  | fetchError (url : String) (lastExc : Option String)
  deriving DecidableEq

/-- The body of `fetch`'s `for attempt in range(max_retries + 1)` loop;
`n` is the number of attempts left, `a` the current attempt index. -/
def fetchAux (cfg : HttpConfig) (oracle : Nat → AttemptOutcome)
    (jitter : Nat → ℚ) (url : String) :
    Nat → Nat → Option String → RateLimiter → ℚ →
    FetchResult × RateLimiter × ℚ × List Event
  | 0, _, lastExc, rl, t => (.fetchError url lastExc, rl, t, [])
  | n + 1, a, lastExc, rl, t =>
    let s := rl.sleepFor url t
    let w := rl.wait url t
    match oracle a with
    | .resp r =>
      if r.status ∈ cfg.backoff_statuses then
        let d := (2 : ℚ) ^ a + jitter a
        let rest := fetchAux cfg oracle jitter url n (a + 1) lastExc w.1 (w.2 + d)
        (rest.1, rest.2.1, rest.2.2.1,
          .wait url s :: .get url :: .backoff a d :: rest.2.2.2)
      else
        (.ok r, w.1, w.2, [.wait url s, .get url])
    | .exc e =>
      let d := (2 : ℚ) ^ a + jitter a
      let rest := fetchAux cfg oracle jitter url n (a + 1) (some e) w.1 (w.2 + d)
      (rest.1, rest.2.1, rest.2.2.1,
        .wait url s :: .get url :: .backoff a d :: rest.2.2.2)

/-- Embedding of `http.fetch(client, rl, url, cfg=cfg)` from limiter state `rl`
and clock `t`. -/
def fetch (cfg : HttpConfig) (oracle : Nat → AttemptOutcome) (jitter : Nat → ℚ)
    (url : String) (rl : RateLimiter) (t : ℚ) :
    FetchResult × RateLimiter × ℚ × List Event :=
  fetchAux cfg oracle jitter url (cfg.max_retries + 1) 0 none rl t

/-! ### `download.py` -/

/-- Embedding of `stable_pdf_filename`: `f"{source_id}_{sha256(pdf_url.encode()).hexdigest()[:12]}.pdf"`. -/
def stable_pdf_filename (source_id pdf_url : String) : String :=
  let h := (sha256Hex (utf8Bytes pdf_url)).take 12
  source_id ++ "_" ++ h ++ ".pdf"

/-- ASCII lowercasing, as `.lower()` acts on ASCII header values. -/
def charLower (c : Char) : Char :=
  if 65 <= c.toNat && c.toNat <= 90 then Char.ofNat (c.toNat + 32) else c

def strLower (s : String) : String := String.mk (s.data.map charLower)

/-- Is `needle` a contiguous substring of the character list? -/
def listHasInfix (needle : List Char) : List Char → Bool
  | [] => needle.isEmpty
  | c :: rest => needle.isPrefixOf (c :: rest) || listHasInfix needle rest

/-- Python's `needle in hay` on strings. -/
def strContains (hay needle : String) : Bool := listHasInfix needle.data hay.data

inductive DlResult where
  | ok (path : String)
  | paywall (msg : String)
  | fetchFailed (url : String) (lastExc : Option String)
  deriving DecidableEq

/-- Embedding of `download_pdf`: construct a fresh `RateLimiter`, fetch `pdf_url`, raise
`PaywallOrHtmlError` when the content type contains `text/html`, otherwise
write the bytes to the stable filename and return its path. The fetch's
`RuntimeError` on exhaustion propagates as `fetchFailed`. Also returns the
fetch trace. -/
def download_pdf (source_id pdf_url out_dir : String) (cfg : HttpConfig)
    (oracle : Nat → AttemptOutcome) (jitter : Nat → ℚ) (t0 : ℚ) :
    DlResult × List Event :=
  let path := out_dir ++ "/" ++ stable_pdf_filename source_id pdf_url
  let rl : RateLimiter := ⟨cfg.rps_per_domain, []⟩
  let res := fetch cfg oracle jitter pdf_url rl t0
  match res.1 with
  | .fetchError u le => (.fetchFailed u le, res.2.2.2)
  | .ok r =>
    if strContains (strLower r.contentType) "text/html" then
      (.paywall ("Got HTML instead of PDF for " ++ pdf_url), res.2.2.2)
    else
      (.ok path, res.2.2.2)

/-- The shared prelude of `discover_imf_reo_meca`, `discover_iea_natural_gas_reports`,
`resolve_imf_issue_to_pdf` and `resolve_iea_report_to_pdf`: each constructs its
own fresh `RateLimiter(cfg.rps_per_domain)` and performs one `fetch` with it. -/
def discoverResolveFetch (page_url : String) (cfg : HttpConfig)
    (oracle : Nat → AttemptOutcome) (jitter : Nat → ℚ) (t0 : ℚ) :
    FetchResult × RateLimiter × ℚ × List Event :=
  fetch cfg oracle jitter page_url ⟨cfg.rps_per_domain, []⟩ t0

/-! ### `run.py`: discovery phase and per-item state machine

The external collaborators (Supabase store, resolvers, PDF text extraction,
enrichment) are modeled by per-item outcome environments; completed store
writes and the enrichment call are recorded as an event trace. -/

structure DiscoveredItem where
  source_id : String
  title : String
  doc_url : String
  published_date : Option String := none
  deriving DecidableEq

structure ResolvedDoc where
  source_id : String
  title : String
  doc_url : String
  pdf_url : String
  paywalled : Bool := false
  deriving DecidableEq

/-- Python truthiness of `row.get("id")` for an optional string field:
`None` and `""` are falsy. -/
def truthy : Option String → Bool
  | none => false
  | some s => !s.isEmpty

/-- Python `str(e)` for the optional last exception (`str(None)` is `"None"`). -/
def excStr : Option String → String
  | none => "None"
  | some e => e

/-- Outcomes of the external calls made while processing one item.
`upsert` carries the returned row's `"id"` field (`none` when the row lacks
one); `patch` is `set_ingest_item_status`, keyed by the status argument
(each status is patched at most once per item). -/
structure ItemEnv where
  upsert : Except String (Option String)
  resolve : Except String ResolvedDoc
  download : DlResult
  extract : Except String String
  enrich : Except String Unit
  regUpsert : Except String Unit
  patch : String → Except String Unit

/-- Store writes and enrichment calls that completed while processing one
item. -/
inductive ItemStep where
  | upsertItem (doc_url : String) (status : String)
  | patch (doc_url : String) (status : String) (error : Option String)
  | enrichCall (doc_url : String)
  | regUpsert (doc_url : String) (content_hash : String)
  deriving DecidableEq

/-- How the per-item `try` body ended. -/
inductive BodyOutcome where
  | stored
  | paywallSkipped
  | raised (e : String)
  deriving DecidableEq

/-- The body of the per-item `try` block of `run.main`: upsert the ingest
item, resolve, patch, download (catching only `PaywallOrHtmlError`), extract,
hash, enrich, check the ingest item id, upsert the regulation, patch
`stored`. Returns the completed events and how the body ended. -/
def processItemBody (item : DiscoveredItem) (env : ItemEnv) :
    List ItemStep × BodyOutcome :=
  match env.upsert with
  | .error e => ([], .raised e)
  | .ok idField =>
    let ev0 := [ItemStep.upsertItem item.doc_url "discovered"]
    match env.resolve with
    | .error e => (ev0, .raised e)
    | .ok _resolved =>
      match env.patch "discovered" with
      | .error e => (ev0, .raised e)
      | .ok _ =>
        let ev1 := ev0 ++ [ItemStep.patch item.doc_url "discovered" none]
        match env.download with
        | .fetchFailed u le =>
          (ev1, .raised
            ("Failed to fetch after retries: " ++ u ++ ". Last error: " ++ excStr le))
        | .paywall msg =>
          match env.patch "skipped_paywall" with
          | .error e => (ev1, .raised e)
          | .ok _ =>
            (ev1 ++ [ItemStep.patch item.doc_url "skipped_paywall" (some msg)],
              .paywallSkipped)
        | .ok _path =>
          match env.patch "downloaded" with
          | .error e => (ev1, .raised e)
          | .ok _ =>
            let ev2 := ev1 ++ [ItemStep.patch item.doc_url "downloaded" none]
            match env.extract with
            | .error e => (ev2, .raised e)
            | .ok text =>
              let content_hash := sha256_text text
              match env.patch "extracted" with
              | .error e => (ev2, .raised e)
              | .ok _ =>
                let ev3 := ev2 ++ [ItemStep.patch item.doc_url "extracted" none]
                let ev4 := ev3 ++ [ItemStep.enrichCall item.doc_url]
                match env.enrich with
                | .error e => (ev4, .raised e)
                | .ok _ =>
                  match env.patch "enriched" with
                  | .error e => (ev4, .raised e)
                  | .ok _ =>
                    let ev5 := ev4 ++ [ItemStep.patch item.doc_url "enriched" none]
                    if truthy idField then
                      match env.regUpsert with
                      | .error e => (ev5, .raised e)
                      | .ok _ =>
                        let ev6 := ev5 ++ [ItemStep.regUpsert item.doc_url content_hash]
                        match env.patch "stored" with
                        | .error e => (ev6, .raised e)
                        | .ok _ =>
                          (ev6 ++ [ItemStep.patch item.doc_url "stored" none], .stored)
                    else
                      (ev5, .raised "Missing ingest_item_id after upsert")

/-- Final per-item outcome, after the `except` handler. -/
inductive ItemOutcome where
  | stored
  | paywallSkipped
  | failed (e : String)
  deriving DecidableEq

/-- One entry of `log["errors"]`. -/
structure RunError where
  stage : String
  source_id : Option String := none
  doc_url : Option String := none
  error : String
  deriving DecidableEq

structure ItemResult where
  events : List ItemStep
  outcome : ItemOutcome
  errors : List RunError
  deriving DecidableEq

/-- One item's processing including the item-boundary `except` handler:
on a raised error, record it in the run log and best-effort patch the item to
`failed` (a failure of that patch is swallowed by the inner
`except Exception: pass`). -/
def processItem (item : DiscoveredItem) (env : ItemEnv) : ItemResult :=
  let body := processItemBody item env
  match body.2 with
  | .stored => { events := body.1, outcome := .stored, errors := [] }
  | .paywallSkipped => { events := body.1, outcome := .paywallSkipped, errors := [] }
  | .raised e =>
    let patchEv :=
      match env.patch "failed" with
      | .ok _ => [ItemStep.patch item.doc_url "failed" (some e)]
      | .error _ => []
    { events := body.1 ++ patchEv,
      outcome := .failed e,
      errors := [{ stage := "process", source_id := some item.source_id,
                   doc_url := some item.doc_url, error := e }] }

/-- The `log["counts"]` of `run.main`. These are exactly the four counter keys
the code initializes; the pipeline in `run.py` has no `skipped_unchanged`
counter. -/
structure Counts where
  discovered : Nat := 0
  processed : Nat := 0
  failed : Nat := 0
  skipped_paywall : Nat := 0
  deriving DecidableEq

def addOutcome (c : Counts) : ItemOutcome → Counts
  | .stored => { c with processed := c.processed + 1 }
  | .paywallSkipped => { c with skipped_paywall := c.skipped_paywall + 1 }
  | .failed _ => { c with failed := c.failed + 1 }

/-- The discovery phase of `run.main`: both `discover_*` calls run inside a
single `try` block whose handler appends one run-level error; an exception in
the first call skips the second call entirely. -/
def discoverPhase (imf iea : Except String (List DiscoveredItem)) :
    List DiscoveredItem × List RunError :=
  match imf with
  | .error e => ([], [{ stage := "discover", error := e }])
  | .ok xs =>
    match iea with
    | .error e => (xs, [{ stage := "discover", error := e }])
    | .ok ys => (xs ++ ys, [])

def processItems (envOf : DiscoveredItem → ItemEnv) (items : List DiscoveredItem) :
    List (DiscoveredItem × ItemResult) :=
  items.map fun it => (it, processItem it (envOf it))

structure RunLog where
  counts : Counts
  errors : List RunError
  results : List (DiscoveredItem × ItemResult)
  deriving DecidableEq

/-- One full run of `run.main` (minus filesystem side outputs): discovery
phase, then sequential processing of every discovered item, aggregating
counters and errors. -/
def runModel (imf iea : Except String (List DiscoveredItem))
    (envOf : DiscoveredItem → ItemEnv) : RunLog :=
  let d := discoverPhase imf iea
  let results := processItems envOf d.1
  { counts :=
      { results.foldl (fun c r => addOutcome c r.2.outcome) {} with
        discovered := d.1.length },
    errors := d.2 ++ results.flatMap fun r => r.2.errors,
    results := results }

/-- Model of `store.get_regulation_by_doc_url` over an abstract regulations table
(rows kept as `(doc_url, content_hash)` pairs): point lookup by natural key,
`none` when no record exists. -/
def get_regulation_by_doc_url (regs : List (String × String)) (doc_url : String) :
    Option (String × String) :=
  regs.find? fun r => r.1 == doc_url

/-- Does the trace contain an enrichment call? -/
def hasEnrichCall (evs : List ItemStep) : Bool :=
  evs.any fun e => match e with | .enrichCall _ => true | _ => false

/-- Does the trace contain a regulation upsert? -/
def hasRegUpsert (evs : List ItemStep) : Bool :=
  evs.any fun e => match e with | .regUpsert _ _ => true | _ => false

/-- Status of the last `set_ingest_item_status` call in the trace. -/
def lastPatchStatus (evs : List ItemStep) : Option String :=
  evs.foldl (fun acc e => match e with | .patch _ s _ => some s | _ => acc) none

/-! ### Claim theorems -/

/-- C8: `stable_pdf_filename(source_id, pdf_url)` is the deterministic pure
function `source_id + "_" + first 12 hex characters of sha256(pdf_url) +
".pdf"`; consequently `download_pdf`, whenever it succeeds, writes to (and on
repetition overwrites) exactly `out_dir/stable_pdf_filename(source_id,
pdf_url)`, the same path for all transports, jitters and clocks. -/
theorem stable_pdf_filename_formula (source_id pdf_url out_dir : String)
    (cfg : HttpConfig) (oracle : Nat → AttemptOutcome) (jitter : Nat → ℚ)
    (t0 : ℚ) :
    stable_pdf_filename source_id pdf_url =
      source_id ++ "_" ++ (sha256Hex (utf8Bytes pdf_url)).take 12 ++ ".pdf" ∧
    ((download_pdf source_id pdf_url out_dir cfg oracle jitter t0).1 =
        DlResult.ok (out_dir ++ "/" ++ stable_pdf_filename source_id pdf_url) ∨
      (∃ msg,
        (download_pdf source_id pdf_url out_dir cfg oracle jitter t0).1 =
          DlResult.paywall msg) ∨
      (∃ u le,
        (download_pdf source_id pdf_url out_dir cfg oracle jitter t0).1 =
          DlResult.fetchFailed u le)) := by
  constructor
  · rfl
  · rcases h : (fetch cfg oracle jitter pdf_url ⟨cfg.rps_per_domain, []⟩ t0).1 with
      r | ⟨u, le⟩
    · cases hb : strContains (strLower r.contentType) "text/html"
      · exact Or.inl (by simp [download_pdf, h, hb])
      · exact Or.inr (Or.inl ⟨"Got HTML instead of PDF for " ++ pdf_url,
          by simp [download_pdf, h, hb]⟩)
    · exact Or.inr (Or.inr ⟨u, le, by simp [download_pdf, h]⟩)

/-- Concrete inputs for the C1 evaluation: an item whose freshly extracted
text hashes to exactly the content hash of an already-existing regulation
record, with every collaborator succeeding. -/
def c1item : DiscoveredItem :=
  { source_id := "imf_reo_meca", title := "REO MECA",
    doc_url := "https://www.imf.org/en/publications/reo/meca/issues/2025" }

def c1env : ItemEnv :=
  { upsert := .ok (some "row-1"),
    resolve := .ok
      { source_id := "imf_reo_meca", title := "REO MECA",
        doc_url := c1item.doc_url,
        pdf_url := "https://www.imf.org/-/media/reo.pdf" },
    download := .ok "data/raw/imf_reo_meca_abcdef.pdf",
    extract := .ok "Q1 GDP grew 2%.",
    enrich := .ok (),
    regUpsert := .ok (),
    patch := fun _ => .ok () }

/-- The regulations table already holding a record for this `doc_url` whose
`content_hash` equals the hash of the freshly extracted text. -/
def c1priorRegs : List (String × String) :=
  [(c1item.doc_url, sha256_text "Q1 GDP grew 2%.")]

/-- C1: evaluation of `run.main`'s per-item pipeline at the failing input.
A regulation for this `doc_url` with a `content_hash` equal to the freshly
computed one already exists, yet the pipeline (the `force_enrich_debug`
variant shipped in `run.py`, whose enrich stage is commented `ENRICH (FORCED
– NO DEDUPE)`) still performs the enrichment call and the regulation write
and patches through `enriched` to `stored`; it never consults
`get_regulation_by_doc_url` and its `log["counts"]` has no
`skipped_unchanged` key to increment. This contradicts the claimed dedupe
short-circuit. -/
theorem forced_enrich_ignores_unchanged_hash :
    (get_regulation_by_doc_url c1priorRegs c1item.doc_url).map Prod.snd =
      some (sha256_text "Q1 GDP grew 2%.") ∧
    hasEnrichCall (processItem c1item c1env).events = true ∧
    hasRegUpsert (processItem c1item c1env).events = true ∧
    ItemStep.regUpsert c1item.doc_url (sha256_text "Q1 GDP grew 2%.") ∈
      (processItem c1item c1env).events ∧
    ItemStep.patch c1item.doc_url "enriched" none ∈ (processItem c1item c1env).events ∧
    (processItem c1item c1env).outcome = ItemOutcome.stored ∧
    lastPatchStatus (processItem c1item c1env).events = some "stored" := by
  decide

/-- An IEA item the second discoverer stands ready to return. -/
def c5iea : DiscoveredItem :=
  { source_id := "iea_gas_reports", title := "Gas Market Report",
    doc_url := "https://www.iea.org/reports/gas-market-report" }

def c5env : ItemEnv :=
  { upsert := .ok (some "row-2"),
    resolve := .ok
      { source_id := "iea_gas_reports", title := "Gas Market Report",
        doc_url := c5iea.doc_url, pdf_url := "https://x.blob/gas.pdf" },
    download := .ok "data/raw/iea_gas_reports_abcdef.pdf",
    extract := .ok "Gas demand rose.",
    enrich := .ok (),
    regUpsert := .ok (),
    patch := fun _ => .ok () }

/-- C5 counterexample: the two discovery calls share one `try` block, so when
the first source's discoverer raises, the second source's discoverer never
runs: with the IMF discoverer failing and the IEA discoverer ready to return
an item, the run processes no items at all — the other source's items are
lost, contradicting "only that source's items are lost". -/
theorem first_source_failure_loses_second :
    (runModel
        (.error "IMF discover: no issue links found (HTML may have changed).")
        (.ok [c5iea]) (fun _ => c5env)).results = [] ∧
    (runModel
        (.error "IMF discover: no issue links found (HTML may have changed).")
        (.ok [c5iea]) (fun _ => c5env)).counts.discovered = 0 ∧
    (runModel
        (.error "IMF discover: no issue links found (HTML may have changed).")
        (.ok [c5iea]) (fun _ => c5env)).errors =
      [{ stage := "discover",
         error := "IMF discover: no issue links found (HTML may have changed)." }] := by
  decide

/-- C5 (amended): when a source's discovery collaborator raises, the error is
recorded at the run level and the run is not aborted; the items discovered
before the failing call are still processed, but discovery calls after the
failing one are skipped — a failure of the second source leaves the first
source's items intact, while a failure of the first source also loses the
second source's items. -/
theorem discover_failure_isolated (xs : List DiscoveredItem) (e : String)
    (iea : Except String (List DiscoveredItem))
    (envOf : DiscoveredItem → ItemEnv) :
    ((runModel (.ok xs) (.error e) envOf).results = processItems envOf xs ∧
      { stage := "discover", error := e } ∈
        (runModel (.ok xs) (.error e) envOf).errors ∧
      (runModel (.ok xs) (.error e) envOf).counts.discovered = xs.length) ∧
    ((runModel (.error e) iea envOf).results = [] ∧
      { stage := "discover", error := e } ∈
        (runModel (.error e) iea envOf).errors ∧
      (runModel (.error e) iea envOf).counts.discovered = 0) := by
  refine ⟨⟨?_, ?_, ?_⟩, ?_, ?_, ?_⟩ <;>
    simp [runModel, discoverPhase, processItems]

/-- Helper: the per-item `try` body under a paywall download, with the store
patches succeeding: the item stops after the `skipped_paywall` patch. -/
lemma processItemBody_paywall (item : DiscoveredItem) (env : ItemEnv)
    (idf : Option String) (rd : ResolvedDoc) (msg : String)
    (hup : env.upsert = .ok idf) (hres : env.resolve = .ok rd)
    (hp1 : env.patch "discovered" = .ok ())
    (hpd : env.download = .paywall msg)
    (hp2 : env.patch "skipped_paywall" = .ok ()) :
    processItemBody item env =
      ([ItemStep.upsertItem item.doc_url "discovered",
        ItemStep.patch item.doc_url "discovered" none,
        ItemStep.patch item.doc_url "skipped_paywall" (some msg)],
        .paywallSkipped) := by
  unfold processItemBody
  rw [hup, hres, hp1, hpd, hp2]
  rfl

/-- C2: an item whose download succeeds at the HTTP level but whose response
content type contains `text/html` is terminated as `skipped_paywall` — never
`failed` or `stored`: the error text is recorded on the status patch, the
run's `skipped_paywall` counter is incremented, no enrichment call and no
regulation write happen, no error escapes to the run log, and the next items
are still processed. -/
theorem paywall_item_skipped (item : DiscoveredItem) (env : ItemEnv)
    (source_id pdf_url out_dir : String) (cfg : HttpConfig)
    (oracle : Nat → AttemptOutcome) (jitter : Nat → ℚ) (t0 : ℚ) (r : Response)
    (idf : Option String) (rd : ResolvedDoc)
    (hfetch : (fetch cfg oracle jitter pdf_url ⟨cfg.rps_per_domain, []⟩ t0).1 =
      FetchResult.ok r)
    (hhtml : strContains (strLower r.contentType) "text/html" = true)
    (hdl : env.download =
      (download_pdf source_id pdf_url out_dir cfg oracle jitter t0).1)
    (hup : env.upsert = .ok idf) (hres : env.resolve = .ok rd)
    (hp1 : env.patch "discovered" = .ok ())
    (hp2 : env.patch "skipped_paywall" = .ok ()) :
    (processItem item env).outcome = ItemOutcome.paywallSkipped ∧
    ItemStep.patch item.doc_url "skipped_paywall"
        (some ("Got HTML instead of PDF for " ++ pdf_url)) ∈
      (processItem item env).events ∧
    lastPatchStatus (processItem item env).events = some "skipped_paywall" ∧
    hasEnrichCall (processItem item env).events = false ∧
    hasRegUpsert (processItem item env).events = false ∧
    (∀ c, addOutcome c (processItem item env).outcome =
      { c with skipped_paywall := c.skipped_paywall + 1 }) ∧
    (processItem item env).errors = [] ∧
    (∀ (envOf : DiscoveredItem → ItemEnv) (rest : List DiscoveredItem),
      envOf item = env →
      processItems envOf (item :: rest) =
        (item, processItem item env) :: processItems envOf rest) := by
  have hpd : env.download =
      DlResult.paywall ("Got HTML instead of PDF for " ++ pdf_url) := by
    rw [hdl]; simp [download_pdf, hfetch, hhtml]
  have hbody := processItemBody_paywall item env idf rd _ hup hres hp1 hpd hp2
  refine ⟨?_, ?_, ?_, ?_, ?_, ?_, ?_, ?_⟩
  · simp [processItem, hbody]
  · simp [processItem, hbody]
  · simp [processItem, hbody, lastPatchStatus]
  · simp [processItem, hbody, hasEnrichCall]
  · simp [processItem, hbody, hasRegUpsert]
  · intro c; simp [processItem, hbody, addOutcome]
  · simp [processItem, hbody]
  · intro envOf rest he
    simp [processItems, he]

/-- C9: enrichment succeeded but the earlier `upsert_ingest_item` returned no
usable `"id"` (`row.get("id")` falsy): the store stage raises `Missing
ingest_item_id after upsert`, the item ends `failed` with the error recorded
in the run log and patched onto the item, the run's `failed` counter is
incremented, and no regulation record is written. -/
theorem missing_ingest_id_fails (item : DiscoveredItem) (env : ItemEnv)
    (idf : Option String) (rd : ResolvedDoc) (path text : String)
    (hup : env.upsert = .ok idf) (hfalsy : truthy idf = false)
    (hres : env.resolve = .ok rd) (hdl : env.download = .ok path)
    (hext : env.extract = .ok text) (henr : env.enrich = .ok ())
    (hp : ∀ s, env.patch s = .ok ()) :
    (processItem item env).outcome =
      ItemOutcome.failed "Missing ingest_item_id after upsert" ∧
    hasEnrichCall (processItem item env).events = true ∧
    hasRegUpsert (processItem item env).events = false ∧
    lastPatchStatus (processItem item env).events = some "failed" ∧
    { stage := "process", source_id := some item.source_id,
      doc_url := some item.doc_url,
      error := "Missing ingest_item_id after upsert" } ∈
      (processItem item env).errors ∧
    (∀ c, addOutcome c (processItem item env).outcome =
      { c with failed := c.failed + 1 }) := by
  have hbody : processItemBody item env =
      ([ItemStep.upsertItem item.doc_url "discovered",
        ItemStep.patch item.doc_url "discovered" none,
        ItemStep.patch item.doc_url "downloaded" none,
        ItemStep.patch item.doc_url "extracted" none,
        ItemStep.enrichCall item.doc_url,
        ItemStep.patch item.doc_url "enriched" none],
        .raised "Missing ingest_item_id after upsert") := by
    unfold processItemBody
    rw [hup, hres, hp "discovered", hdl, hp "downloaded", hext,
      hp "extracted", henr, hp "enriched"]
    simp [hfalsy]
  refine ⟨?_, ?_, ?_, ?_, ?_, ?_⟩
  · simp [processItem, hbody, hp "failed"]
  · simp [processItem, hbody, hp "failed", hasEnrichCall]
  · simp [processItem, hbody, hp "failed", hasRegUpsert]
  · simp [processItem, hbody, hp "failed", lastPatchStatus]
  · simp [processItem, hbody, hp "failed"]
  · intro c; simp [processItem, hbody, hp "failed", addOutcome]

/-- C6: an unhandled exception at any stage of one item's processing is
caught once at the item boundary: the run's `failed` counter is incremented,
the error text enters the run log and is best-effort patched onto the item
with status `failed` (a failure of that patch is swallowed and changes
neither the outcome nor the recorded error), and every other item — before or
after — is still processed exactly as it would be alone: one item's failure
never aborts the run. -/
theorem item_failure_isolated (pre post : List DiscoveredItem)
    (item : DiscoveredItem) (envOf : DiscoveredItem → ItemEnv) (e : String)
    (hraise : (processItemBody item (envOf item)).2 = .raised e) :
    (processItem item (envOf item)).outcome = ItemOutcome.failed e ∧
    { stage := "process", source_id := some item.source_id,
      doc_url := some item.doc_url, error := e } ∈
      (processItem item (envOf item)).errors ∧
    (∀ c, addOutcome c (processItem item (envOf item)).outcome =
      { c with failed := c.failed + 1 }) ∧
    ((envOf item).patch "failed" = .ok () →
      ItemStep.patch item.doc_url "failed" (some e) ∈
        (processItem item (envOf item)).events) ∧
    (∀ err, (envOf item).patch "failed" = .error err →
      (processItem item (envOf item)).events =
        (processItemBody item (envOf item)).1 ∧
      (processItem item (envOf item)).errors =
        [{ stage := "process", source_id := some item.source_id,
           doc_url := some item.doc_url, error := e }]) ∧
    processItems envOf (pre ++ item :: post) =
      processItems envOf pre ++
        (item, processItem item (envOf item)) :: processItems envOf post := by
  refine ⟨?_, ?_, ?_, ?_, ?_, ?_⟩
  · simp [processItem, hraise]
  · simp [processItem, hraise]
  · intro c; simp [processItem, hraise, addOutcome]
  · intro hok; simp [processItem, hraise, hok]
  · intro err herr; simp [processItem, hraise, herr]
  · simp [processItems]

/-! Concrete inputs witnessing the hypotheses of the claim theorems above. -/

def c2cfg : HttpConfig := { user_agent := "docdl/0.1" }

def c2url : String := "https://www.imf.org/-/media/files/reo.pdf"

def c2oracle : Nat → AttemptOutcome :=
  fun _ => .resp { status := 200, contentType := "text/html; charset=utf-8" }

def c2resp : Response := { status := 200, contentType := "text/html; charset=utf-8" }

def c2item : DiscoveredItem :=
  { source_id := "imf_reo_meca", title := "REO",
    doc_url := "https://www.imf.org/en/publications/reo/meca/issues/2024" }

def c2rd : ResolvedDoc :=
  { source_id := "imf_reo_meca", title := "REO", doc_url := c2item.doc_url,
    pdf_url := c2url }

def c2env : ItemEnv :=
  { upsert := .ok (some "row-7"),
    resolve := .ok c2rd,
    download :=
      (download_pdf "imf_reo_meca" c2url "data/raw" c2cfg c2oracle
        (fun _ => 0) 100).1,
    extract := .ok "unreached",
    enrich := .ok (),
    regUpsert := .ok (),
    patch := fun _ => .ok () }

theorem paywall_item_skipped_witness :
    ((fetch c2cfg c2oracle (fun _ => 0) c2url ⟨c2cfg.rps_per_domain, []⟩ 100).1 =
        FetchResult.ok c2resp ∧
      strContains (strLower c2resp.contentType) "text/html" = true) ∧
    (processItem c2item c2env).outcome = ItemOutcome.paywallSkipped ∧
    hasEnrichCall (processItem c2item c2env).events = false := by
  refine ⟨⟨by decide, by decide⟩, ?_, ?_⟩
  · exact (paywall_item_skipped c2item c2env "imf_reo_meca" c2url "data/raw"
      c2cfg c2oracle (fun _ => 0) 100 c2resp (some "row-7") c2rd (by decide)
      (by decide) rfl rfl rfl rfl rfl).1
  · exact (paywall_item_skipped c2item c2env "imf_reo_meca" c2url "data/raw"
      c2cfg c2oracle (fun _ => 0) 100 c2resp (some "row-7") c2rd (by decide)
      (by decide) rfl rfl rfl rfl rfl).2.2.2.1

def c9item : DiscoveredItem :=
  { source_id := "iea_gas_reports", title := "Gas 2025",
    doc_url := "https://www.iea.org/reports/gas-2025" }

def c9rd : ResolvedDoc :=
  { source_id := "iea_gas_reports", title := "Gas 2025",
    doc_url := c9item.doc_url, pdf_url := "https://x.blob/gas-2025.pdf" }

def c9env : ItemEnv :=
  { upsert := .ok none,
    resolve := .ok c9rd,
    download := .ok "data/raw/iea_gas_reports_0011aabbccdd.pdf",
    extract := .ok "Gas demand rose 2%.",
    enrich := .ok (),
    regUpsert := .ok (),
    patch := fun _ => .ok () }

theorem missing_ingest_id_fails_witness :
    (c9env.upsert = Except.ok (none : Option String) ∧ truthy none = false) ∧
    (processItem c9item c9env).outcome =
      ItemOutcome.failed "Missing ingest_item_id after upsert" ∧
    hasRegUpsert (processItem c9item c9env).events = false := by
  refine ⟨⟨rfl, rfl⟩, ?_, ?_⟩
  · exact (missing_ingest_id_fails c9item c9env none c9rd
      "data/raw/iea_gas_reports_0011aabbccdd.pdf" "Gas demand rose 2%." rfl rfl
      rfl rfl rfl rfl (fun _ => rfl)).1
  · exact (missing_ingest_id_fails c9item c9env none c9rd
      "data/raw/iea_gas_reports_0011aabbccdd.pdf" "Gas demand rose 2%." rfl rfl
      rfl rfl rfl rfl (fun _ => rfl)).2.2.1

def c6item : DiscoveredItem :=
  { source_id := "iea_gas_reports", title := "Gas Q3",
    doc_url := "https://www.iea.org/reports/gas-q3" }

def c6err : String :=
  "IEA resolve: no PDF link found on report page: https://www.iea.org/reports/gas-q3"

def c6env : ItemEnv :=
  { upsert := .ok (some "row-3"),
    resolve := .error c6err,
    download := .ok "unreached",
    extract := .ok "unreached",
    enrich := .ok (),
    regUpsert := .ok (),
    patch := fun _ => .ok () }

theorem item_failure_isolated_witness :
    (processItemBody c6item c6env).2 = BodyOutcome.raised c6err ∧
    (processItem c6item c6env).outcome = ItemOutcome.failed c6err := by
  refine ⟨by decide, ?_⟩
  exact (item_failure_isolated [] [] c6item (fun _ => c6env) c6err (by decide)).1

/-! ### Fetch retry loop: trace accounting -/

/-- Number of GET attempts recorded in a trace. -/
def countGets : List Event → Nat
  | [] => 0
  | Event.get _ :: rest => countGets rest + 1
  | _ :: rest => countGets rest

/-- Number of rate-limiter waits recorded in a trace. -/
def countWaits : List Event → Nat
  | [] => 0
  | Event.wait _ _ :: rest => countWaits rest + 1
  | _ :: rest => countWaits rest

/-- Every GET in the trace is immediately preceded by a rate-limiter wait
(backoff sleeps may sit between attempts). -/
def waitGetShape : List Event → Bool
  | [] => true
  | Event.wait _ _ :: Event.get _ :: rest => waitGetShape rest
  | Event.backoff _ _ :: rest => waitGetShape rest
  | _ => false

/-- The last transport exception among the first `n` attempts starting at
index `a` (the value `fetch` keeps in `last_exc`). -/
def lastExcAux (oracle : Nat → AttemptOutcome) : Nat → Nat → Option String → Option String
  | 0, _, acc => acc
  | n + 1, a, acc =>
    lastExcAux oracle n (a + 1)
      (match oracle a with | .exc e => some e | .resp _ => acc)

/-- The last transport exception among attempts `0, …, n-1`. -/
def lastExcIn (oracle : Nat → AttemptOutcome) (n : Nat) : Option String :=
  lastExcAux oracle n 0 none

/-- Helper for C3: when the oracle yields backoff-status responses on the
first `k` attempts (relative to base index `a`) and a non-backoff response on
attempt `k`, the loop returns that response after exactly `k + 1` GET
attempts, each immediately preceded by a wait. -/
lemma fetchAux_backoff_then_ok (cfg : HttpConfig) (oracle : Nat → AttemptOutcome)
    (jitter : Nat → ℚ) (url : String) :
    ∀ (k n a : Nat) (lastExc : Option String) (rl : RateLimiter) (t : ℚ)
      (okR : Response), k < n →
    (∀ i, i < k → ∃ r, oracle (a + i) = .resp r ∧ r.status ∈ cfg.backoff_statuses) →
    oracle (a + k) = .resp okR →
    okR.status ∉ cfg.backoff_statuses →
    (fetchAux cfg oracle jitter url n a lastExc rl t).1 = .ok okR ∧
    countGets (fetchAux cfg oracle jitter url n a lastExc rl t).2.2.2 = k + 1 ∧
    countWaits (fetchAux cfg oracle jitter url n a lastExc rl t).2.2.2 = k + 1 ∧
    waitGetShape (fetchAux cfg oracle jitter url n a lastExc rl t).2.2.2 = true := by
  intro k
  induction k with
  | zero =>
    intro n a lastExc rl t okR hn hback hok hnot
    rw [Nat.add_zero] at hok
    cases n with
    | zero => omega
    | succ m =>
      simp [fetchAux, hok, hnot, countGets, countWaits, waitGetShape]
  | succ k ih =>
    intro n a lastExc rl t okR hn hback hok hnot
    cases n with
    | zero => omega
    | succ m =>
      obtain ⟨r0, hr0, hr0b⟩ := hback 0 (Nat.succ_pos k)
      rw [Nat.add_zero] at hr0
      have hrec := ih m (a + 1) lastExc ((rl.wait url t).1)
        ((rl.wait url t).2 + ((2 : ℚ) ^ a + jitter a)) okR (by omega)
        (fun i hi => by
          have h := hback (i + 1) (by omega)
          rwa [show a + (i + 1) = a + 1 + i by omega] at h)
        (by rwa [show a + 1 + k = a + (k + 1) by omega])
        hnot
      refine ⟨?_, ?_, ?_, ?_⟩ <;>
        simp [fetchAux, hr0, hr0b, countGets, countWaits, waitGetShape,
          hrec.1, hrec.2.1, hrec.2.2.1, hrec.2.2.2]

/-- C3: if the transport yields a backoff status (e.g. 503) on the first `k`
attempts, `k < max_retries`, and a non-backoff response on attempt `k + 1`
with no transport exceptions, then `fetch` returns that response, makes
exactly `k + 1` GET attempts, and every GET is immediately preceded by a
`RateLimiter.wait` call. -/
theorem fetch_retries_backoff_then_returns (cfg : HttpConfig)
    (oracle : Nat → AttemptOutcome) (jitter : Nat → ℚ) (url : String)
    (rl : RateLimiter) (t : ℚ) (k : Nat) (okR : Response)
    (hk : k < cfg.max_retries)
    (hback : ∀ i, i < k → ∃ r, oracle i = .resp r ∧ r.status ∈ cfg.backoff_statuses)
    (hok : oracle k = .resp okR)
    (hnot : okR.status ∉ cfg.backoff_statuses) :
    (fetch cfg oracle jitter url rl t).1 = .ok okR ∧
    countGets (fetch cfg oracle jitter url rl t).2.2.2 = k + 1 ∧
    countWaits (fetch cfg oracle jitter url rl t).2.2.2 = k + 1 ∧
    waitGetShape (fetch cfg oracle jitter url rl t).2.2.2 = true := by
  have h := fetchAux_backoff_then_ok cfg oracle jitter url k
    (cfg.max_retries + 1) 0 none rl t okR (by omega)
    (fun i hi => by simpa using hback i hi) (by simpa using hok) hnot
  exact h

/-- Helper for C4: when every remaining attempt fails (backoff status or
transport exception), the loop exhausts and reports the last transport
exception it saw. -/
lemma fetchAux_all_fail (cfg : HttpConfig) (oracle : Nat → AttemptOutcome)
    (jitter : Nat → ℚ) (url : String) :
    ∀ (n a : Nat) (lastExc : Option String) (rl : RateLimiter) (t : ℚ),
    (∀ i, i < n →
      (∃ r, oracle (a + i) = .resp r ∧ r.status ∈ cfg.backoff_statuses) ∨
      (∃ e, oracle (a + i) = .exc e)) →
    (fetchAux cfg oracle jitter url n a lastExc rl t).1 =
      .fetchError url (lastExcAux oracle n a lastExc) := by
  intro n
  induction n with
  | zero => intro a lastExc rl t _; rfl
  | succ m ih =>
    intro a lastExc rl t hfail
    have hstep := hfail 0 (Nat.succ_pos m)
    rw [Nat.add_zero] at hstep
    have hshift : ∀ i, i < m →
        (∃ r, oracle (a + 1 + i) = .resp r ∧ r.status ∈ cfg.backoff_statuses) ∨
        (∃ e, oracle (a + 1 + i) = .exc e) := fun i hi => by
      have h := hfail (i + 1) (by omega)
      rwa [show a + (i + 1) = a + 1 + i by omega] at h
    rcases hstep with ⟨r, hr, hrb⟩ | ⟨e, he⟩
    · rw [show lastExcAux oracle (m + 1) a lastExc =
          lastExcAux oracle m (a + 1) lastExc by simp [lastExcAux, hr]]
      simp [fetchAux, hr, hrb, ih (a + 1) lastExc _ _ hshift]
    · rw [show lastExcAux oracle (m + 1) a lastExc =
          lastExcAux oracle m (a + 1) (some e) by simp [lastExcAux, he]]
      simp [fetchAux, he, ih (a + 1) (some e) _ _ hshift]

/-- C4: when all `max_retries + 1` attempts fail — each attempt either yields
a backoff-set status or raises a transport exception — `fetch` fails with the
`Failed to fetch after retries` error carrying the last underlying transport
exception (`last_exc`, `none` when every failure was a backoff status). -/
theorem fetch_exhaustion_carries_last_cause (cfg : HttpConfig)
    (oracle : Nat → AttemptOutcome) (jitter : Nat → ℚ) (url : String)
    (rl : RateLimiter) (t : ℚ)
    (hfail : ∀ i, i < cfg.max_retries + 1 →
      (∃ r, oracle i = .resp r ∧ r.status ∈ cfg.backoff_statuses) ∨
      (∃ e, oracle i = .exc e)) :
    (fetch cfg oracle jitter url rl t).1 =
      .fetchError url (lastExcIn oracle (cfg.max_retries + 1)) := by
  exact fetchAux_all_fail cfg oracle jitter url (cfg.max_retries + 1) 0 none rl t
    (fun i hi => by simpa using hfail i hi)

def c3cfg : HttpConfig := { user_agent := "docdl/0.1" }

def c3oracle : Nat → AttemptOutcome := fun a =>
  if a < 2 then .resp { status := 503, contentType := "" }
  else .resp { status := 200, contentType := "application/pdf" }

theorem fetch_retries_backoff_then_returns_witness :
    ((2 : Nat) < c3cfg.max_retries ∧
      c3oracle 2 = .resp { status := 200, contentType := "application/pdf" }) ∧
    (fetch c3cfg c3oracle (fun _ => 0) "https://a.com/f.pdf" ⟨5, []⟩ 100).1 =
      .ok { status := 200, contentType := "application/pdf" } ∧
    countGets (fetch c3cfg c3oracle (fun _ => 0) "https://a.com/f.pdf" ⟨5, []⟩ 100).2.2.2 = 3 := by
  refine ⟨⟨by decide, by decide⟩, ?_⟩
  have h := fetch_retries_backoff_then_returns c3cfg c3oracle (fun _ => 0)
    "https://a.com/f.pdf" ⟨5, []⟩ 100 2
    { status := 200, contentType := "application/pdf" } (by decide)
    (fun i hi => ⟨{ status := 503, contentType := "" }, by
      match i, hi with
      | 0, _ => exact ⟨rfl, by decide⟩
      | 1, _ => exact ⟨rfl, by decide⟩⟩)
    (by decide) (by decide)
  exact ⟨h.1, h.2.1⟩

def c4cfg : HttpConfig := { user_agent := "docdl/0.1", max_retries := 1 }

def c4oracle : Nat → AttemptOutcome := fun a =>
  if a = 0 then .exc "connection reset by peer"
  else .resp { status := 503, contentType := "" }

theorem fetch_exhaustion_carries_last_cause_witness :
    ((∃ e, c4oracle 0 = .exc e) ∧
      (∃ r, c4oracle 1 = .resp r ∧ r.status ∈ c4cfg.backoff_statuses)) ∧
    (fetch c4cfg c4oracle (fun _ => 0) "https://a.com/f.pdf" ⟨5, []⟩ 100).1 =
      .fetchError "https://a.com/f.pdf" (some "connection reset by peer") := by
  refine ⟨⟨⟨"connection reset by peer", by decide⟩,
    ⟨{ status := 503, contentType := "" }, by decide, by decide⟩⟩, ?_⟩
  have h := fetch_exhaustion_carries_last_cause c4cfg c4oracle (fun _ => 0)
    "https://a.com/f.pdf" ⟨5, []⟩ 100
    (fun i hi => by
      match i, hi with
      | 0, _ => exact Or.inr ⟨"connection reset by peer", by decide⟩
      | 1, _ => exact Or.inl ⟨{ status := 503, contentType := "" }, by decide, by decide⟩)
  rw [h]
  decide

/-! ### Rate limiter: spacing, domain independence, side effects -/

lemma lookupD_insertD_self :
    ∀ (m : List (String × ℚ)) (k : String) (v : ℚ),
      lookupD (insertD m k v) k = v
  | [], k, v => by simp [insertD, lookupD]
  | p :: rest, k, v => by
    by_cases h : (p.1 == k) = true
    · simp [insertD, h, lookupD]
    · simp [insertD, h, lookupD, lookupD_insertD_self rest k v]

lemma lookupD_insertD_ne :
    ∀ (m : List (String × ℚ)) (k k2 : String) (v : ℚ), k2 ≠ k →
      lookupD (insertD m k v) k2 = lookupD m k2
  | [], k, k2, v, h => by
    simp [insertD, lookupD, beq_iff_eq, Ne.symm h]
  | p :: rest, k, k2, v, h => by
    by_cases h1 : (p.1 == k) = true
    · have hp : p.1 = k := by simpa [beq_iff_eq] using h1
      simp [insertD, h1, lookupD, beq_iff_eq, hp, Ne.symm h]
    · simp [insertD, h1, lookupD, lookupD_insertD_ne rest k k2 v h]

lemma sleepFor_nonneg (rl : RateLimiter) (url : String) (t : ℚ) :
    0 ≤ rl.sleepFor url t := by
  unfold RateLimiter.sleepFor
  dsimp only
  split_ifs with h
  · linarith
  · exact le_refl 0

/-- The completion time of a `wait` is at least the domain's previous
timestamp plus the minimum interval. -/
lemma wait_completion_ge (rl : RateLimiter) (url : String) (t : ℚ) :
    lookupD rl.lastByDomain (netloc url) + rl.minInterval ≤ (rl.wait url t).2 := by
  show _ ≤ t + rl.sleepFor url t
  unfold RateLimiter.sleepFor
  dsimp only
  split_ifs with h
  · linarith
  · push_neg at h; linarith

lemma wait_fst_minInterval (rl : RateLimiter) (url : String) (t : ℚ) :
    (rl.wait url t).1.minInterval = rl.minInterval := rfl

lemma wait_fst_lookup (rl : RateLimiter) (url : String) (t : ℚ) :
    lookupD (rl.wait url t).1.lastByDomain (netloc url) = (rl.wait url t).2 := by
  show lookupD (insertD rl.lastByDomain (netloc url) _) (netloc url) = _
  rw [lookupD_insertD_self]
  rfl

/-- Perform `N` consecutive `wait` calls against one URL; the `i`-th call arrives
`ds[i]` seconds after the previous completion (the first, `ds[0]` after `t`).
Returns the final limiter, the final clock, and the completion times. -/
def waitSeq (url : String) : List ℚ → RateLimiter → ℚ → RateLimiter × ℚ × List ℚ
  | [], rl, t => (rl, t, [])
  | d :: ds, rl, t =>
    let w := rl.wait url (t + d)
    let rest := waitSeq url ds w.1 w.2
    (rest.1, rest.2.1, w.2 :: rest.2.2)

lemma waitSeq_head_ge (url : String) (ds : List ℚ) (rl : RateLimiter) (t : ℚ) :
    ∀ c, ((waitSeq url ds rl t).2.2).head? = some c →
      lookupD rl.lastByDomain (netloc url) + rl.minInterval ≤ c := by
  cases ds with
  | nil => intro c hc; simp [waitSeq] at hc
  | cons d ds =>
    intro c hc
    simp only [waitSeq, List.head?_cons, Option.some.injEq] at hc
    rw [← hc]
    exact wait_completion_ge rl url (t + d)

/-- Consecutive completion times of same-domain waits are at least one
minimum interval apart. -/
lemma waitSeq_chain (url : String) :
    ∀ (ds : List ℚ) (rl : RateLimiter) (t : ℚ),
    ((waitSeq url ds rl t).2.2).Chain' (fun a b => a + rl.minInterval ≤ b) := by
  intro ds
  induction ds with
  | nil => intro rl t; simp [waitSeq]
  | cons d ds ih =>
    intro rl t
    simp only [waitSeq]
    rw [List.chain'_cons']
    constructor
    · intro y hy
      have h := waitSeq_head_ge url ds ((rl.wait url (t + d)).1)
        ((rl.wait url (t + d)).2) y hy
      rw [wait_fst_lookup, wait_fst_minInterval] at h
      exact h
    · have h := ih ((rl.wait url (t + d)).1) ((rl.wait url (t + d)).2)
      simpa [wait_fst_minInterval] using h

/-- A chain of steps each advancing by at least `mi` advances by at least
`(length - 1) * mi` from head to last. -/
lemma chain_head_last (mi : ℚ) :
    ∀ (l : List ℚ), l.Chain' (fun a b => a + mi ≤ b) →
    ∀ a b, l.head? = some a → l.getLast? = some b →
      a + ((l.length - 1 : ℕ) : ℚ) * mi ≤ b := by
  intro l
  induction l with
  | nil => intro _ a b ha _; simp at ha
  | cons x xs ih =>
    intro hchain a b ha hb
    cases xs with
    | nil =>
      simp only [List.head?_cons, Option.some.injEq] at ha
      simp only [List.getLast?_singleton, Option.some.injEq] at hb
      subst ha; subst hb
      simp
    | cons y ys =>
      rw [List.chain'_cons] at hchain
      simp only [List.head?_cons, Option.some.injEq] at ha
      subst ha
      have hb2 : (y :: ys).getLast? = some b := by
        rwa [List.getLast?_cons_cons] at hb
      have hrec := ih hchain.2 y b rfl hb2
      have hlen : ((x :: y :: ys).length - 1 : ℕ) = ((y :: ys).length - 1 : ℕ) + 1 := by
        simp
      rw [hlen]
      have hstep := hchain.1
      have hexp : x + ((((y :: ys).length - 1 : ℕ) + 1 : ℕ) : ℚ) * mi =
          (x + mi) + (((y :: ys).length - 1 : ℕ) : ℚ) * mi := by
        push_cast; ring
      rw [hexp]
      linarith

/-- C7: for one `RateLimiter` with `rps_per_domain = r ≥ 0.1` and a fixed
domain, consecutive permitted-request timestamps are at least `1/r` apart, so
`N` consecutive waits span at least `(N-1)/r` seconds; a wait on a URL of a
different domain never changes this domain's sleep (distinct domains never
block each other); and `wait`'s only side effect is overwriting that
domain's last-request timestamp, leaving `rps` and all other domains'
entries untouched. -/
theorem rate_limiter_wait_spec (r : ℚ) (url url2 : String) (ds : List ℚ)
    (m : List (String × ℚ)) (t t2 : ℚ)
    (hr : 1 / 10 ≤ r) (hdom : netloc url2 ≠ netloc url) :
    (((waitSeq url ds ⟨r, m⟩ t).2.2).Chain' fun a b => a + 1 / r ≤ b) ∧
    (∀ c1 cN, ((waitSeq url ds ⟨r, m⟩ t).2.2).head? = some c1 →
      ((waitSeq url ds ⟨r, m⟩ t).2.2).getLast? = some cN →
      c1 + ((((waitSeq url ds ⟨r, m⟩ t).2.2).length - 1 : ℕ) : ℚ) * (1 / r) ≤ cN) ∧
    ((RateLimiter.wait ⟨r, m⟩ url2 t2).1.sleepFor url t =
      RateLimiter.sleepFor ⟨r, m⟩ url t) ∧
    ((RateLimiter.wait ⟨r, m⟩ url t).1 =
      ⟨r, insertD m (netloc url) ((RateLimiter.wait ⟨r, m⟩ url t).2)⟩) ∧
    (∀ dom, dom ≠ netloc url →
      lookupD ((RateLimiter.wait ⟨r, m⟩ url t).1.lastByDomain) dom = lookupD m dom) := by
  have hmi : (⟨r, m⟩ : RateLimiter).minInterval = 1 / r := by
    unfold RateLimiter.minInterval
    rw [show (⟨r, m⟩ : RateLimiter).rps = r from rfl, max_eq_left hr]
  have hchain := waitSeq_chain url ds ⟨r, m⟩ t
  rw [hmi] at hchain
  refine ⟨hchain, ?_, ?_, ?_, ?_⟩
  · intro c1 cN h1 hN
    exact chain_head_last (1 / r) _ hchain c1 cN h1 hN
  · unfold RateLimiter.sleepFor
    rw [show (RateLimiter.wait ⟨r, m⟩ url2 t2).1.lastByDomain =
        insertD m (netloc url2) ((RateLimiter.wait ⟨r, m⟩ url2 t2).2) from rfl,
      lookupD_insertD_ne m (netloc url2) (netloc url) _ (Ne.symm hdom)]
    rfl
  · rfl
  · intro dom hd
    rw [show (RateLimiter.wait ⟨r, m⟩ url t).1.lastByDomain =
        insertD m (netloc url) ((RateLimiter.wait ⟨r, m⟩ url t).2) from rfl,
      lookupD_insertD_ne m (netloc url) dom _ hd]

theorem rate_limiter_wait_spec_witness :
    ((1 : ℚ) / 10 ≤ 1 ∧ netloc "http://b.com/y" ≠ netloc "http://a.com/x") ∧
    (RateLimiter.wait ⟨1, []⟩ "http://b.com/y" 50).1.sleepFor "http://a.com/x" 50 =
      RateLimiter.sleepFor ⟨1, []⟩ "http://a.com/x" 50 := by
  refine ⟨⟨by norm_num, by decide⟩, ?_⟩
  exact (rate_limiter_wait_spec 1 "http://a.com/x" "http://b.com/y" [0, 0, 0]
    [] 50 50 (by norm_num) (by decide)).2.2.1

/-! ### Fresh rate limiter per operation -/

/-- The first event of any (nonempty-attempt) fetch trace is the wait for the
first attempt, sleeping exactly what the initial limiter state dictates. -/
lemma fetchAux_trace_head (cfg : HttpConfig) (oracle : Nat → AttemptOutcome)
    (jitter : Nat → ℚ) (url : String) (n a : Nat) (lastExc : Option String)
    (rl : RateLimiter) (t : ℚ) :
    ((fetchAux cfg oracle jitter url (n + 1) a lastExc rl t).2.2.2).head? =
      some (Event.wait url (rl.sleepFor url t)) := by
  cases ho : oracle a with
  | resp r =>
    by_cases hb : r.status ∈ cfg.backoff_statuses <;> simp [fetchAux, ho, hb]
  | exc e => simp [fetchAux, ho]

/-- A freshly constructed limiter (empty per-domain map) sleeps zero on its
first wait once the clock is at least one minimum interval past the epoch. -/
lemma fresh_sleepFor_zero (r : ℚ) (url : String) (t : ℚ)
    (h : 1 / max r (1 / 10) ≤ t) :
    RateLimiter.sleepFor ⟨r, []⟩ url t = 0 := by
  unfold RateLimiter.sleepFor RateLimiter.minInterval
  simp only [lookupD]
  split_ifs with hs
  · exfalso; linarith
  · rfl

/-- The trace `download_pdf` produces is exactly its internal fetch trace. -/
lemma download_pdf_trace (source_id pdf_url out_dir : String) (cfg : HttpConfig)
    (oracle : Nat → AttemptOutcome) (jitter : Nat → ℚ) (t0 : ℚ) :
    (download_pdf source_id pdf_url out_dir cfg oracle jitter t0).2 =
      (fetch cfg oracle jitter pdf_url ⟨cfg.rps_per_domain, []⟩ t0).2.2.2 := by
  rcases h : (fetch cfg oracle jitter pdf_url ⟨cfg.rps_per_domain, []⟩ t0).1 with
    r | ⟨u, le⟩
  · cases hb : strContains (strLower r.contentType) "text/html" <;>
      simp [download_pdf, h, hb]
  · simp [download_pdf, h]

/-- C10: `download_pdf` (and likewise each discover/resolve operation,
modeled by their shared fetch prelude) constructs its own fresh `RateLimiter`
with an empty per-domain map, so once the wall clock is at least
`1/max(rps_per_domain, 0.1)` past the epoch, the operation's first wait
sleeps zero — for every domain, and regardless of any other operation's
history: the minimum-interval spacing binds only the retry attempts inside
one operation, never across stages or items. -/
theorem fresh_limiter_per_operation (source_id pdf_url page_url out_dir : String)
    (cfg : HttpConfig) (oracle oracle2 : Nat → AttemptOutcome)
    (jitter jitter2 : Nat → ℚ) (t0 t1 : ℚ)
    (h0 : 1 / max cfg.rps_per_domain (1 / 10) ≤ t0)
    (h1 : 1 / max cfg.rps_per_domain (1 / 10) ≤ t1) :
    ((download_pdf source_id pdf_url out_dir cfg oracle jitter t0).2).head? =
      some (Event.wait pdf_url 0) ∧
    ((discoverResolveFetch page_url cfg oracle2 jitter2 t1).2.2.2).head? =
      some (Event.wait page_url 0) ∧
    (∀ url, RateLimiter.sleepFor ⟨cfg.rps_per_domain, []⟩ url t0 = 0) := by
  have hz0 : ∀ url, RateLimiter.sleepFor ⟨cfg.rps_per_domain, []⟩ url t0 = 0 :=
    fun url => fresh_sleepFor_zero _ url t0 h0
  have hz1 : ∀ url, RateLimiter.sleepFor ⟨cfg.rps_per_domain, []⟩ url t1 = 0 :=
    fun url => fresh_sleepFor_zero _ url t1 h1
  refine ⟨?_, ?_, hz0⟩
  · rw [download_pdf_trace]
    have h := fetchAux_trace_head cfg oracle jitter pdf_url cfg.max_retries 0
      none ⟨cfg.rps_per_domain, []⟩ t0
    rw [hz0 pdf_url] at h
    exact h
  · have h := fetchAux_trace_head cfg oracle2 jitter2 page_url cfg.max_retries 0
      none ⟨cfg.rps_per_domain, []⟩ t1
    rw [hz1 page_url] at h
    exact h

def c10cfg : HttpConfig := { user_agent := "docdl/0.1" }

def c10oracle : Nat → AttemptOutcome :=
  fun _ => .resp { status := 200, contentType := "application/pdf" }

theorem fresh_limiter_per_operation_witness :
    ((1 : ℚ) / max c10cfg.rps_per_domain (1 / 10) ≤ 1) ∧
    ((download_pdf "imf_reo_meca" "https://a.com/f.pdf" "data/raw" c10cfg
        c10oracle (fun _ => 0) 1).2).head? =
      some (Event.wait "https://a.com/f.pdf" 0) := by
  refine ⟨by norm_num [c10cfg], ?_⟩
  exact (fresh_limiter_per_operation "imf_reo_meca" "https://a.com/f.pdf"
    "https://www.iea.org/analysis" "data/raw" c10cfg c10oracle c10oracle
    (fun _ => 0) (fun _ => 0) 1 1 (by norm_num [c10cfg]) (by norm_num [c10cfg])).1

end Docdl
